import Mathlib

/-!
# P3AT robot task: command watchdog and control loop

Shallow embedding of `src/P3AT/Robot/Task.cpp` (`P3AT::Robot::Task`).

* C++ `float`/`double` values are embedded as exact rationals (`ℚ`) and decimal
  literals as the rationals they are written as; rounding is not modelled.
* The ARIA robot (`ArRobot`) is an external library object.  It is embedded by
  the two set-points last passed to `setVel` / `setRotVel`; every call made on
  it (and every other externally visible step of the task) is appended, in
  program order, to the `trace` of the task.
* `Time::Delta` and the pose reported by the robot belong to external
  libraries: the value returned by `stop_delta.getDelta()` and the pose read by
  `robot->getPose()` are inputs of a loop iteration.
-/

namespace P3AT.Robot

/-- The constant `M_PI` of `<math.h>`: the decimal literal 3.14159265358979323846. -/
def M_PI : ℚ := 314159265358979323846 / 100000000000000000000

/-- The literal `0.4f` compared with `stop_time` in `onMain`, embedded like
every other decimal literal of the source as the rational it is written as. -/
def stopThreshold : ℚ := 4 / 10

/-- Inbound message `IMC::DesiredVelocity`: fields `u` (m/s) and `r` (rad/s). -/
structure DesiredVelocity where
  u : ℚ
  r : ℚ
  deriving DecidableEq, Repr

/-- Outbound message `IMC::EstimatedState`: fields `x`, `y` (m) and `psi` (rad). -/
structure EstimatedState where
  x : ℚ
  y : ℚ
  psi : ℚ
  deriving DecidableEq, Repr

/-- The pose `ArPose` reported by the robot: `getX`, `getY` (mm), `getTh` (deg). -/
structure ArPose where
  x : ℚ
  y : ℚ
  th : ℚ
  deriving DecidableEq, Repr

/-- Externally visible steps of the task, in the order the code performs them. -/
inductive Action where
  | lock
  | unlock
  | setAbsoluteMaxTransVel (v : ℚ)
  | setAbsoluteMaxRotVel (v : ℚ)
  | comIntEnable (v : ℤ)
  | setVel (v : ℚ)
  | setRotVel (v : ℚ)
  | getPose
  | dispatch (m : EstimatedState)
  | getDelta
  | stopDeltaClear
  | stopTimeReset
  | waitForMessages
  | ariaExit
  deriving DecidableEq, Repr

/-- The part of `ArRobot` the task writes: the set-points last passed to
`setVel` (mm/s) and `setRotVel` (deg/s). -/
structure ArRobot where
  vel : ℚ
  rotVel : ℚ
  deriving DecidableEq, Repr

/-- The state of `struct Task` that the control loop and `consume` use. -/
structure Task where
  robot : ArRobot
  robotState : EstimatedState
  stop_time : ℚ
  trace : List Action
  deriving DecidableEq, Repr

/-- Record one step in the trace. -/
def Task.emit (a : Action) (t : Task) : Task :=
  { t with trace := t.trace ++ [a] }

/-- Call `robot->lock()`. -/
def robotLock (t : Task) : Task := t.emit Action.lock

/-- Call `robot->unlock()`. -/
def robotUnlock (t : Task) : Task := t.emit Action.unlock

/-- Call `robot->setVel(v)`. -/
def robotSetVel (v : ℚ) (t : Task) : Task :=
  { t with robot := { t.robot with vel := v }, trace := t.trace ++ [Action.setVel v] }

/-- Call `robot->setRotVel(v)`. -/
def robotSetRotVel (v : ℚ) (t : Task) : Task :=
  { t with robot := { t.robot with rotVel := v }, trace := t.trace ++ [Action.setRotVel v] }

/-- The statements `stop_delta.clear(); stop_time = 0.0;`. -/
def clearStopTime (t : Task) : Task :=
  { t with stop_time := 0,
           trace := t.trace ++ [Action.stopDeltaClear, Action.stopTimeReset] }

/-- The part of `onResourceInitialization` after a successful connection
(lines 136-146): motor setup under the lock, then the stop timer is cleared. -/
def onResourceInitialization (t : Task) : Task :=
  let t := robotLock t
  let t := t.emit (Action.setAbsoluteMaxTransVel 500)
  let t := t.emit (Action.setAbsoluteMaxRotVel 45)
  let t := t.emit (Action.comIntEnable 1)
  let t := robotSetVel 0 t
  let t := robotSetRotVel 0 t
  let t := robotUnlock t
  clearStopTime t

/-- The callback `consume(const IMC::DesiredVelocity* msg)` (lines 160-173). -/
def consume (msg : DesiredVelocity) (t : Task) : Task :=
  let t := robotLock t
  let t := robotSetVel (msg.u * 1000) t
  let t := robotSetRotVel (msg.r * 180 / M_PI) t
  let t := robotUnlock t
  clearStopTime t

/-- The pose update of an iteration (lines 185-189): the pose read from the
robot is converted and dispatched. -/
def publishPose (pose : ArPose) (t : Task) : Task :=
  let t := t.emit Action.getPose
  let st : EstimatedState :=
    { x := pose.x / 1000, y := pose.y / 1000, psi := pose.th * M_PI / 180 }
  { t with robotState := st, trace := t.trace ++ [Action.dispatch st] }

/-- The statements `float delta = stop_delta.getDelta(); if (delta > 0.0)
stop_time += delta;` (lines 194-196); `delta` is the value `getDelta` returned. -/
def accumulate (delta : ℚ) (t : Task) : Task :=
  let t := t.emit Action.getDelta
  if delta > 0 then { t with stop_time := t.stop_time + delta } else t

/-- The statement `if (stop_time > 0.4f) { lock; setVel(0); setRotVel(0); unlock }`
(lines 197-202). -/
def watchdog (t : Task) : Task :=
  if t.stop_time > stopThreshold then
    let t := robotLock t
    let t := robotSetVel 0 t
    let t := robotSetRotVel 0 t
    robotUnlock t
  else t

/-- One iteration of the `while (!stopping())` loop of `onMain` (lines 184-204);
`pose` is what `robot->getPose()` returned and `delta` what
`stop_delta.getDelta()` returned. -/
def loopBody (pose : ArPose) (delta : ℚ) (t : Task) : Task :=
  let t := publishPose pose t
  let t := accumulate delta t
  let t := watchdog t
  t.emit Action.waitForMessages

/-- The statements of `onMain` after the loop (lines 207-212). -/
def afterLoop (t : Task) : Task :=
  let t := robotSetVel 0 t
  let t := robotSetRotVel 0 t
  t.emit Action.ariaExit

/-- What happens while the task runs: a velocity command is delivered to
`consume`, or the loop runs one iteration. -/
inductive Event where
  | command (msg : DesiredVelocity)
  | tick (pose : ArPose) (delta : ℚ)
  deriving DecidableEq, Repr

/-- Handle one event. -/
def step (t : Task) : Event → Task
  | Event.command msg => consume msg t
  | Event.tick pose delta => loopBody pose delta t

/-- Handle a finite sequence of events, oldest first. -/
def runEvents (evs : List Event) (t : Task) : Task :=
  evs.foldl step t

/-- The function `onMain`: the loop handles `evs` until `stopping()` holds, then
the statements after the loop run. -/
def onMain (evs : List Event) (t : Task) : Task :=
  afterLoop (runEvents evs t)

/-- A complete execution: initialisation, the main loop and shutdown. -/
def execution (evs : List Event) (t : Task) : Task :=
  onMain evs (onResourceInitialization t)

/-! ## Observations on states and traces -/

/-- The pair of set-points last written to the robot. -/
def Task.velocity (t : Task) : ℚ × ℚ := (t.robot.vel, t.robot.rotVel)

/-- The set-points `consume` writes for a command. -/
def converted (msg : DesiredVelocity) : ℚ × ℚ := (msg.u * 1000, msg.r * 180 / M_PI)

/-- Whether an iteration that starts in `t` and measures `delta` enters the
forced-stop branch. -/
def forcesStop (delta : ℚ) (t : Task) : Bool :=
  decide ((accumulate delta t).stop_time > stopThreshold)

/-- Whether the event is a loop iteration. -/
def Event.isTick : Event → Bool
  | Event.tick _ _ => true
  | Event.command _ => false

/-- Whether the robot lock is held after the steps of `tr`, when it was `held`
before them. -/
def heldAfter (held : Bool) : List Action → Bool
  | [] => held
  | Action.lock :: rest => heldAfter true rest
  | Action.unlock :: rest => heldAfter false rest
  | _ :: rest => heldAfter held rest

/-- Whether every `setVel` / `setRotVel` of `tr` happens while the robot lock is
held, when the lock was `held` before `tr`. -/
def writesLocked (held : Bool) : List Action → Bool
  | [] => true
  | Action.lock :: rest => writesLocked true rest
  | Action.unlock :: rest => writesLocked false rest
  | Action.setVel _ :: rest => held && writesLocked held rest
  | Action.setRotVel _ :: rest => held && writesLocked held rest
  | _ :: rest => writesLocked held rest

/-- Whether every reset of the stop timer (`stop_delta.clear()`, `stop_time = 0`)
of `tr` happens while the robot lock is held. -/
def resetsLocked (held : Bool) : List Action → Bool
  | [] => true
  | Action.lock :: rest => resetsLocked true rest
  | Action.unlock :: rest => resetsLocked false rest
  | Action.stopDeltaClear :: rest => held && resetsLocked held rest
  | Action.stopTimeReset :: rest => held && resetsLocked held rest
  | _ :: rest => resetsLocked held rest

/-- A loop iteration as an event. -/
def tickEvent (p : ArPose × ℚ) : Event := Event.tick p.1 p.2

/-- Whether some iteration among `evs`, handled from state `t` on, enters the
forced-stop branch. -/
def stopForced (t : Task) : List Event → Bool
  | [] => false
  | Event.command msg :: rest => stopForced (consume msg t) rest
  | Event.tick pose delta :: rest =>
      forcesStop delta t || stopForced (loopBody pose delta t) rest

/-- The steps of `consume` that write the command to the robot. -/
def writeSection (msg : DesiredVelocity) : List Action :=
  [Action.lock, Action.setVel (msg.u * 1000), Action.setRotVel (msg.r * 180 / M_PI),
   Action.unlock]

/-- A task at rest with nothing recorded yet. -/
def restTask : Task :=
  { robot := ⟨0, 0⟩, robotState := ⟨0, 0, 0⟩, stop_time := 0, trace := [] }

theorem emit_trace (a : Action) (t : Task) : (t.emit a).trace = t.trace ++ [a] := rfl

theorem watchdog_stop_time (t : Task) : (watchdog t).stop_time = t.stop_time := by
  unfold watchdog
  split <;> rfl

theorem watchdog_robot (t : Task) :
    (watchdog t).robot = if t.stop_time > stopThreshold then ⟨0, 0⟩ else t.robot := by
  unfold watchdog
  split <;> rfl

theorem watchdog_trace (t : Task) :
    (watchdog t).trace = t.trace ++
      (if t.stop_time > stopThreshold then
        [Action.lock, Action.setVel 0, Action.setRotVel 0, Action.unlock] else []) := by
  unfold watchdog
  split
  · simp [robotLock, robotUnlock, robotSetVel, robotSetRotVel, Task.emit]
  · simp

theorem accumulate_stop_time (d : ℚ) (t : Task) :
    (accumulate d t).stop_time = if d > 0 then t.stop_time + d else t.stop_time := by
  unfold accumulate
  split <;> rfl

theorem accumulate_robot (d : ℚ) (t : Task) : (accumulate d t).robot = t.robot := by
  unfold accumulate
  split <;> rfl

theorem accumulate_trace (d : ℚ) (t : Task) :
    (accumulate d t).trace = t.trace ++ [Action.getDelta] := by
  unfold accumulate
  split <;> rfl

theorem loopBody_stop_time (pose : ArPose) (d : ℚ) (t : Task) :
    (loopBody pose d t).stop_time = if d > 0 then t.stop_time + d else t.stop_time := by
  show (watchdog (accumulate d (publishPose pose t))).stop_time = _
  rw [watchdog_stop_time, accumulate_stop_time]
  rfl

theorem loopBody_robot (pose : ArPose) (d : ℚ) (t : Task) :
    (loopBody pose d t).robot =
      if (loopBody pose d t).stop_time > stopThreshold then ⟨0, 0⟩ else t.robot := by
  rw [loopBody_stop_time]
  show (watchdog (accumulate d (publishPose pose t))).robot = _
  rw [watchdog_robot, accumulate_stop_time, accumulate_robot]
  rfl

theorem loopBody_trace (pose : ArPose) (d : ℚ) (t : Task) :
    (loopBody pose d t).trace = t.trace ++
      [Action.getPose,
       Action.dispatch ⟨pose.x / 1000, pose.y / 1000, pose.th * M_PI / 180⟩,
       Action.getDelta] ++
      (if (loopBody pose d t).stop_time > stopThreshold then
        [Action.lock, Action.setVel 0, Action.setRotVel 0, Action.unlock] else []) ++
      [Action.waitForMessages] := by
  rw [loopBody_stop_time]
  show (watchdog (accumulate d (publishPose pose t))).trace ++ [Action.waitForMessages] = _
  rw [watchdog_trace, accumulate_stop_time, accumulate_trace]
  simp [publishPose, Task.emit]

theorem consume_velocity (msg : DesiredVelocity) (t : Task) :
    (consume msg t).velocity = converted msg := rfl

theorem consume_trace (msg : DesiredVelocity) (t : Task) :
    (consume msg t).trace = t.trace ++
      [Action.lock, Action.setVel (msg.u * 1000), Action.setRotVel (msg.r * 180 / M_PI),
       Action.unlock, Action.stopDeltaClear, Action.stopTimeReset] := by
  simp [consume, clearStopTime, robotLock, robotUnlock, robotSetVel, robotSetRotVel,
    Task.emit]

theorem forcesStop_eq (pose : ArPose) (d : ℚ) (t : Task) :
    forcesStop d t = decide ((loopBody pose d t).stop_time > stopThreshold) := by
  unfold forcesStop
  rw [loopBody_stop_time, accumulate_stop_time]

theorem loopBody_velocity (pose : ArPose) (d : ℚ) (t : Task) :
    (loopBody pose d t).velocity = if forcesStop d t = true then (0, 0) else t.velocity := by
  unfold Task.velocity
  rw [loopBody_robot, forcesStop_eq pose d t]
  by_cases h : (loopBody pose d t).stop_time > stopThreshold <;> simp [h]

theorem runEvents_nil (t : Task) : runEvents [] t = t := rfl

theorem runEvents_cons (e : Event) (evs : List Event) (t : Task) :
    runEvents (e :: evs) t = runEvents evs (step t e) := rfl

theorem runEvents_append (a b : List Event) (t : Task) :
    runEvents (a ++ b) t = runEvents b (runEvents a t) := by
  unfold runEvents
  exact List.foldl_append _ _ _ _

theorem heldAfter_append (held : Bool) (a b : List Action) :
    heldAfter held (a ++ b) = heldAfter (heldAfter held a) b := by
  induction a generalizing held with
  | nil => rfl
  | cons x xs ih => cases x <;> simp [heldAfter, ih]

theorem writesLocked_append (held : Bool) (a b : List Action) :
    writesLocked held (a ++ b) = (writesLocked held a && writesLocked (heldAfter held a) b) := by
  induction a generalizing held with
  | nil => simp [writesLocked, heldAfter]
  | cons x xs ih => cases x <;> simp [writesLocked, heldAfter, ih, Bool.and_assoc]

/-- The trace keeps the lock discipline and leaves the lock free. -/
theorem init_locked (t : Task) (h : t.trace = []) :
    writesLocked false (onResourceInitialization t).trace = true
    ∧ heldAfter false (onResourceInitialization t).trace = false := by
  simp [onResourceInitialization, clearStopTime, robotLock, robotUnlock, robotSetVel,
    robotSetRotVel, Task.emit, h, writesLocked, heldAfter]

theorem step_locked (t : Task) (e : Event)
    (h : writesLocked false t.trace = true ∧ heldAfter false t.trace = false) :
    writesLocked false (step t e).trace = true
    ∧ heldAfter false (step t e).trace = false := by
  obtain ⟨h1, h2⟩ := h
  cases e with
  | command msg =>
    show writesLocked false (consume msg t).trace = true
      ∧ heldAfter false (consume msg t).trace = false
    rw [consume_trace, writesLocked_append, heldAfter_append, h1, h2]
    simp [writesLocked, heldAfter]
  | tick pose d =>
    show writesLocked false (loopBody pose d t).trace = true
      ∧ heldAfter false (loopBody pose d t).trace = false
    rw [loopBody_trace]
    simp only [writesLocked_append, heldAfter_append, h1, h2]
    split <;> simp [writesLocked, heldAfter]

theorem runEvents_locked (evs : List Event) (t : Task)
    (h : writesLocked false t.trace = true ∧ heldAfter false t.trace = false) :
    writesLocked false (runEvents evs t).trace = true
    ∧ heldAfter false (runEvents evs t).trace = false := by
  induction evs generalizing t with
  | nil => exact h
  | cons e rest ih => exact ih (step t e) (step_locked t e h)

theorem afterLoop_trace (t : Task) :
    (afterLoop t).trace = t.trace ++ [Action.setVel 0, Action.setRotVel 0, Action.ariaExit] := by
  simp [afterLoop, robotSetVel, robotSetRotVel, Task.emit]

theorem step_no_exit (t : Task) (e : Event) (h : Action.ariaExit ∉ t.trace) :
    Action.ariaExit ∉ (step t e).trace := by
  cases e with
  | command msg =>
    show Action.ariaExit ∉ (consume msg t).trace
    rw [consume_trace]
    simp [h]
  | tick pose d =>
    show Action.ariaExit ∉ (loopBody pose d t).trace
    rw [loopBody_trace]
    split <;> simp [h]

theorem runEvents_no_exit (evs : List Event) (t : Task) (h : Action.ariaExit ∉ t.trace) :
    Action.ariaExit ∉ (runEvents evs t).trace := by
  induction evs generalizing t with
  | nil => exact h
  | cons e rest ih => exact ih (step t e) (step_no_exit t e h)

theorem ticks_velocity (ticks : List (ArPose × ℚ)) (s : Task) :
    (runEvents (ticks.map tickEvent) s).velocity =
      if stopForced s (ticks.map tickEvent) = true then (0, 0) else s.velocity := by
  induction ticks generalizing s with
  | nil => simp [runEvents_nil, stopForced]
  | cons p rest ih =>
    simp only [List.map_cons, tickEvent, runEvents_cons, step, stopForced]
    have ih2 := ih (loopBody p.1 p.2 s)
    simp only [tickEvent] at ih2
    rw [ih2, loopBody_velocity]
    by_cases h1 : forcesStop p.2 s = true <;>
      by_cases h2 : stopForced (loopBody p.1 p.2 s)
        (List.map (fun p => Event.tick p.1 p.2) rest) = true <;> simp [h1, h2]

/-- C4: consume, for a command (u, r) and any prior state, performs exactly
lock, setVel (u * 1000), setRotVel (r * 180 / pi), unlock and then the reset of
the stop timer; both writes lie in that one lock/unlock section, the robot holds
the two converted set-points afterwards and stop_time is exactly 0. -/
theorem command_step (msg : DesiredVelocity) (t : Task) :
    (consume msg t).trace = t.trace ++
      [Action.lock, Action.setVel (msg.u * 1000), Action.setRotVel (msg.r * 180 / M_PI),
       Action.unlock, Action.stopDeltaClear, Action.stopTimeReset]
    ∧ (consume msg t).robot.vel = msg.u * 1000
    ∧ (consume msg t).robot.rotVel = msg.r * 180 / M_PI
    ∧ (consume msg t).stop_time = 0 :=
  ⟨consume_trace msg t, rfl, rfl, rfl⟩

/-- C1: after initialisation, for every event sequence in which a command
(u, r) is followed only by loop iterations (so it is the most recent command),
the set-points last written to the robot are (0, 0) when one of those later
iterations forced a stop and (u * 1000, r * 180 / pi) otherwise, whatever
commands and iterations came before. -/
theorem latest_command_wins (t : Task) (earlier : List Event) (msg : DesiredVelocity)
    (ticks : List (ArPose × ℚ)) :
    (runEvents (earlier ++ Event.command msg :: ticks.map tickEvent)
        (onResourceInitialization t)).velocity =
      if stopForced (runEvents (earlier ++ [Event.command msg]) (onResourceInitialization t))
          (ticks.map tickEvent) = true
      then (0, 0) else converted msg := by
  have hsplit : earlier ++ Event.command msg :: ticks.map tickEvent =
      (earlier ++ [Event.command msg]) ++ ticks.map tickEvent := by simp
  rw [hsplit, runEvents_append, ticks_velocity]
  have hcmd : (runEvents (earlier ++ [Event.command msg])
      (onResourceInitialization t)).velocity = converted msg := by
    rw [runEvents_append]
    exact consume_velocity msg _
  rw [hcmd]

/-- C5: when the loop is left, in whatever state, the task performs setVel 0 and
setRotVel 0 exactly once each and then Aria::exit; that release is the last step
of the run and its only release, and the set-points end at (0, 0). -/
theorem shutdown_final_stop (evs : List Event) (t : Task) (h : Action.ariaExit ∉ t.trace) :
    (onMain evs t).trace
        = (runEvents evs t).trace ++ [Action.setVel 0, Action.setRotVel 0, Action.ariaExit]
    ∧ Action.ariaExit ∉ (runEvents evs t).trace
    ∧ (onMain evs t).trace.count Action.ariaExit = 1
    ∧ (onMain evs t).trace.getLast? = some Action.ariaExit
    ∧ (onMain evs t).velocity = (0, 0) := by
  have hno := runEvents_no_exit evs t h
  have htr : (onMain evs t).trace
      = (runEvents evs t).trace ++ [Action.setVel 0, Action.setRotVel 0, Action.ariaExit] :=
    afterLoop_trace _
  refine ⟨htr, hno, ?_, ?_, rfl⟩
  · rw [htr, List.count_append, List.count_eq_zero.2 hno]
    decide
  · rw [htr]
    simp

/-- Witness of C5: a command, an iteration, then shutdown. -/
theorem shutdown_final_stop_witness :
    Action.ariaExit ∉ restTask.trace
    ∧ (onMain [Event.command ⟨1, 0⟩, Event.tick ⟨0, 0, 0⟩ (1 / 10)] restTask).trace.count
        Action.ariaExit = 1 :=
  ⟨by simp [restTask],
   (shutdown_final_stop [Event.command ⟨1, 0⟩, Event.tick ⟨0, 0, 0⟩ (1 / 10)] restTask
    (by simp [restTask])).2.2.1⟩

/-- C6 (fails at shutdown): in every complete execution the writes made up to
the end of the loop (initialisation, commands, forced stops) all happen with the
robot lock held and the lock is free when the loop is left, but the two writes
after the loop happen without the lock, so the whole trace breaks the lock
discipline. -/
theorem shutdown_stop_unlocked (evs : List Event) (t : Task) (h : t.trace = []) :
    writesLocked false (runEvents evs (onResourceInitialization t)).trace = true
    ∧ heldAfter false (runEvents evs (onResourceInitialization t)).trace = false
    ∧ writesLocked false (execution evs t).trace = false := by
  have hrun := runEvents_locked evs (onResourceInitialization t) (init_locked t h)
  refine ⟨hrun.1, hrun.2, ?_⟩
  show writesLocked false (afterLoop (runEvents evs (onResourceInitialization t))).trace = false
  rw [afterLoop_trace, writesLocked_append, hrun.1, hrun.2]
  simp [writesLocked]

/-- Witness of C6: the execution that is shut down before any event. -/
theorem shutdown_stop_unlocked_witness :
    restTask.trace = [] ∧ writesLocked false (execution [] restTask).trace = false :=
  ⟨rfl, (shutdown_stop_unlocked [] restTask rfl).2.2⟩

/-- C9 (as stated, fails): handling the command (1 m/s, 0 rad/s) performs lock,
setVel 1000, setRotVel 0, unlock and only then the two reset steps, so the stop
timer is reset while the robot lock is not held. -/
theorem reset_outside_lock :
    (consume ⟨1, 0⟩ restTask).trace =
      [Action.lock, Action.setVel 1000, Action.setRotVel 0, Action.unlock,
       Action.stopDeltaClear, Action.stopTimeReset]
    ∧ resetsLocked false (consume ⟨1, 0⟩ restTask).trace = false := by
  have htr : (consume ⟨1, 0⟩ restTask).trace =
      [Action.lock, Action.setVel 1000, Action.setRotVel 0, Action.unlock,
       Action.stopDeltaClear, Action.stopTimeReset] := by
    rw [consume_trace]
    simp [restTask]
  refine ⟨htr, ?_⟩
  rw [htr]
  simp [resetsLocked]

/-- C9 (amended): handling any command performs the two velocity writes inside
one lock/unlock section and the reset of the stop timer (stop_delta.clear() and
stop_time = 0) right after that section, once the lock has been released; the
lock is not held at the reset, whatever happened before the command. -/
theorem reset_after_unlock (msg : DesiredVelocity) (t : Task) :
    (consume msg t).trace
        = t.trace ++ writeSection msg ++ [Action.stopDeltaClear, Action.stopTimeReset]
    ∧ (∀ held : Bool, writesLocked held (writeSection msg) = true)
    ∧ (∀ held : Bool, heldAfter held (t.trace ++ writeSection msg) = false)
    ∧ (∀ held : Bool, resetsLocked held (consume msg t).trace = false)
    ∧ (consume msg t).stop_time = 0 := by
  have hres : ∀ (tr : List Action) (held : Bool),
      resetsLocked held (tr ++ (writeSection msg ++
        [Action.stopDeltaClear, Action.stopTimeReset])) = false := by
    intro tr
    induction tr with
    | nil => intro held; simp [writeSection, resetsLocked]
    | cons x xs ih => intro held; cases x <;> simp [resetsLocked, ih]
  refine ⟨?_, ?_, ?_, ?_, rfl⟩
  · rw [consume_trace]
    simp [writeSection]
  · intro held
    simp [writeSection, writesLocked]
  · intro held
    rw [heldAfter_append]
    simp [writeSection, heldAfter]
  · intro held
    have htr : (consume msg t).trace
        = t.trace ++ writeSection msg ++ [Action.stopDeltaClear, Action.stopTimeReset] := by
      rw [consume_trace]
      simp [writeSection]
    rw [htr, List.append_assoc]
    exact hres t.trace held

end P3AT.Robot
